import Mathlib

/-!
Verification of the QR rendering pipeline in `qrgen/qr.py` and the vCard
payload builder in `qrgen/payloads.py` / `qr_vcard/vcard.py`.

The Python functions are shallowly embedded: machine floats on the paths we
reason about carry exact small decimal values, so they are modelled as exact
rationals with Python's `int()` truncation made explicit; PIL primitives that
the code calls (`ImageColor.getrgb`, mask rasterisation, `rotate`) are
modelled as pure functions with their documented behaviour; the image being
assembled is represented structurally (dimensions, fills, band heights, logo
placement) rather than as a pixel array, which is faithful because every
claim under verification speaks about those structural quantities.

Python string methods used by the code (`strip`, `lower`, `startswith`) are
modelled as character-list operations so that all definitions evaluate by
kernel reduction.
-/

namespace QRGen

/-- Python `int()` applied to an exact rational: truncation toward zero. -/
def pyInt (q : ℚ) : ℤ := if q < 0 then ⌈q⌉ else ⌊q⌋

/-- Python `str.strip()`: drop whitespace from both ends. -/
def pyStrip (s : String) : String :=
  ⟨((s.data.dropWhile Char.isWhitespace).reverse.dropWhile Char.isWhitespace).reverse⟩

/-- Python `str.lower()`, character-wise. -/
def pyLower (s : String) : String := ⟨s.data.map Char.toLower⟩

/-- Python `str.startswith` specialised to a single-character anchor. -/
def pyStartsWith (s : String) (c : Char) : Bool :=
  match s.data with
  | x :: _ => x == c
  | [] => false

/-- An 8-bit RGB triple, the result type of `_to_rgb_tuple`. -/
structure RGB where
  r : ℕ
  g : ℕ
  b : ℕ
deriving DecidableEq, Repr

/-- An 8-bit RGBA quadruple. -/
structure RGBA where
  r : ℕ
  g : ℕ
  b : ℕ
  a : ℕ
deriving DecidableEq, Repr

/-- Attach an alpha channel to an RGB triple (the `+ (255,)` idiom in qr.py). -/
def RGB.withAlpha (c : RGB) (a : ℕ) : RGBA := ⟨c.r, c.g, c.b, a⟩

/-- A color argument as `generate_qr` receives it: a string (hex, name,
garbage), an already-resolved tuple, or Python `None`. -/
inductive ColorInput where
  | str (s : String)
  | tup (c : RGB)
  | null
deriving DecidableEq, Repr

/-- The color-name allowlist hard-coded in `_normalize_color` (qr.py line 21). -/
def knownColorNames : List String :=
  ["white", "black", "red", "green", "blue", "yellow", "cyan", "magenta", "transparent"]

/-- The hex-digit test of `_normalize_color` (qr.py line 25): membership of the
character in the literal string `"0123456789abcdefABCDEF"`. -/
def isHexDigitPy (c : Char) : Bool := decide (c ∈ "0123456789abcdefABCDEF".data)

/-- Embedding of `_normalize_color` (qr.py lines 7-28). `Option.none` models
Python `None`; non-string inputs pass through unchanged. -/
def _normalize_color (c : ColorInput) : Option ColorInput :=
  match c with
  | ColorInput.null => Option.none
  | ColorInput.tup t => some (ColorInput.tup t)
  | ColorInput.str s0 =>
    let s := pyStrip s0
    if s = "" then Option.none
    else if pyStartsWith s '#' then some (ColorInput.str s)
    else if knownColorNames.contains (pyLower s) then some (ColorInput.str (pyLower s))
    else if (s.length = 3 ∨ s.length = 6) ∧ s.data.all isHexDigitPy then
      some (ColorInput.str ("#" ++ s))
    else some (ColorInput.str s)

/-- Value of one hexadecimal digit character. -/
def hexVal (c : Char) : ℕ :=
  if c.isDigit then c.toNat - 48
  else if 'a' ≤ c ∧ c ≤ 'f' then c.toNat - 87
  else if 'A' ≤ c ∧ c ≤ 'F' then c.toNat - 55
  else 0

/-- Model of PIL's named-color table, restricted to the names reachable
through `_normalize_color`'s allowlist. PIL has no entry for
`"transparent"`, so that name is deliberately missing here as well. -/
def pilColorMap : List (String × RGB) :=
  [("white", ⟨255, 255, 255⟩), ("black", ⟨0, 0, 0⟩), ("red", ⟨255, 0, 0⟩),
   ("green", ⟨0, 128, 0⟩), ("blue", ⟨0, 0, 255⟩), ("yellow", ⟨255, 255, 0⟩),
   ("cyan", ⟨0, 255, 255⟩), ("magenta", ⟨255, 0, 255⟩)]

/-- Model of `PIL.ImageColor.getrgb`: parses `#rgb` and `#rrggbb` hex forms and
looks up lowercased color names; every other input raises `ValueError` in PIL,
modelled as `Option.none`. -/
def getrgbModel (s : String) : Option RGB :=
  match s.data with
  | '#' :: h =>
    match h with
    | [a, b, c, d, e, f] =>
      if ([a, b, c, d, e, f].all isHexDigitPy : Bool) then
        some ⟨16 * hexVal a + hexVal b, 16 * hexVal c + hexVal d, 16 * hexVal e + hexVal f⟩
      else Option.none
    | [a, b, c] =>
      if ([a, b, c].all isHexDigitPy : Bool) then
        some ⟨17 * hexVal a, 17 * hexVal b, 17 * hexVal c⟩
      else Option.none
    | _ => Option.none
  | _ => (pilColorMap.find? (fun p => p.1 == pyLower s)).map Prod.snd

/-- Resolution of an already-normalized color token by PIL, as `_to_rgb_tuple`
invokes it inside its `try` block. -/
def resolvedRgb : ColorInput → Option RGB
  | ColorInput.str s => getrgbModel s
  | ColorInput.tup t => some t
  | ColorInput.null => Option.none

/-- Embedding of `_to_rgb_tuple` (qr.py lines 30-43): tuples are returned
as-is, `None`/empty input yields the caller default, and a PIL parse failure
is caught and yields the caller default. The Lean function is total, which is
the embedded form of the source's never-raises contract. -/
def _to_rgb_tuple (c : ColorInput) (default : RGB) : RGB :=
  match c with
  | ColorInput.tup t => t
  | _ =>
    match _normalize_color c with
    | Option.none => default
    | some n => (resolvedRgb n).getD default

lemma hex_toLower_mem (c : Char) (h : isHexDigitPy c = true) :
    Char.toLower c ∈ "0123456789abcdef".data := by
  have hc : c ∈ "0123456789abcdefABCDEF".data := of_decide_eq_true h
  fin_cases hc <;> decide

lemma all_hex_not_known (s : String) (h : s.data.all isHexDigitPy = true) :
    knownColorNames.contains (pyLower s) = false := by
  have hsub : ∀ x ∈ s.data.map Char.toLower, x ∈ "0123456789abcdef".data := by
    intro x hx
    rcases List.mem_map.1 hx with ⟨c, hc, rfl⟩
    exact hex_toLower_mem c (List.all_eq_true.1 h c hc)
  by_contra hcontra
  have hmem : pyLower s ∈ knownColorNames := by
    have hval : knownColorNames.contains (pyLower s) = true := by
      cases hv : knownColorNames.contains (pyLower s)
      · exact absurd hv hcontra
      · rfl
    simpa using hval
  have hdata : ∀ w : String, pyLower s = w → s.data.map Char.toLower = w.data := by
    intro w hw
    have := congrArg String.data hw
    simpa [pyLower] using this
  simp only [knownColorNames, List.mem_cons, List.not_mem_nil, or_false] at hmem
  rcases hmem with hw | hw | hw | hw | hw | hw | hw | hw | hw
  · exact absurd (by rw [hdata _ hw] at hsub; exact hsub 'w' (by decide)) (by decide)
  · exact absurd (by rw [hdata _ hw] at hsub; exact hsub 'k' (by decide)) (by decide)
  · exact absurd (by rw [hdata _ hw] at hsub; exact hsub 'r' (by decide)) (by decide)
  · exact absurd (by rw [hdata _ hw] at hsub; exact hsub 'g' (by decide)) (by decide)
  · exact absurd (by rw [hdata _ hw] at hsub; exact hsub 'l' (by decide)) (by decide)
  · exact absurd (by rw [hdata _ hw] at hsub; exact hsub 'y' (by decide)) (by decide)
  · exact absurd (by rw [hdata _ hw] at hsub; exact hsub 'y' (by decide)) (by decide)
  · exact absurd (by rw [hdata _ hw] at hsub; exact hsub 'm' (by decide)) (by decide)
  · exact absurd (by rw [hdata _ hw] at hsub; exact hsub 't' (by decide)) (by decide)

/-- C7: color resolution never raises (the embedding is total by
construction); empty input and unrecognized input resolve to the
caller-supplied default, and a 3- or 6-character hex string without a
leading `#` is prefixed with `#` before parsing. -/
theorem c7_color_resolution :
    (∀ d : RGB, _to_rgb_tuple (ColorInput.str "") d = d) ∧
    (∀ (s : String) (d : RGB),
      (∀ n, _normalize_color (ColorInput.str s) = some n → resolvedRgb n = Option.none) →
      _to_rgb_tuple (ColorInput.str s) d = d) ∧
    (∀ s : String, pyStrip s = s → pyStartsWith s '#' = false →
      (s.length = 3 ∨ s.length = 6) → s.data.all isHexDigitPy →
      _normalize_color (ColorInput.str s) = some (ColorInput.str ("#" ++ s))) := by
  refine ⟨?_, ?_, ?_⟩
  · intro d
    rfl
  · intro s d hunrec
    unfold _to_rgb_tuple
    cases hn : _normalize_color (ColorInput.str s) with
    | none => rfl
    | some n =>
      have := hunrec n hn
      simp [this]
  · intro s htrim hhash hlen hhex
    have hne : s ≠ "" := by
      intro he
      rcases hlen with h | h <;> rw [he] at h <;> exact absurd h (by decide)
    have hknown : knownColorNames.contains (pyLower s) = false := all_hex_not_known s hhex
    have hknown' : pyLower s ∉ knownColorNames := by
      intro hm
      have hcontains : knownColorNames.contains (pyLower s) = true := by simpa using hm
      rw [hcontains] at hknown
      cases hknown
    simp only [_normalize_color, htrim]
    rw [if_neg hne, if_neg (by simp [hhash]), if_neg (by simp [hknown']),
      if_pos ⟨hlen, hhex⟩]

/-- Witness for C7 at concrete inputs: garbage falls back to the default and a
six-character hex string is prefixed with `#`. -/
theorem c7_witness :
    _to_rgb_tuple (ColorInput.str "zzzz") ⟨0, 0, 0⟩ = ⟨0, 0, 0⟩ ∧
    _normalize_color (ColorInput.str "1fa2d5") = some (ColorInput.str "#1fa2d5") := by
  refine ⟨c7_color_resolution.2.1 "zzzz" ⟨0, 0, 0⟩ ?_, ?_⟩
  · intro n hn
    have hz : _normalize_color (ColorInput.str "zzzz") = some (ColorInput.str "zzzz") := by
      decide
    rw [hz] at hn
    rw [← Option.some.inj hn]
    decide
  · exact c7_color_resolution.2.2 "1fa2d5" (by decide) (by decide) (by decide) (by decide)

/-! vCard payload builder (`payloads.py` lines 11-58, identical to
`qr_vcard/vcard.py` lines 7-54). The Python dict is ordered, so the template
is a list of key/value pairs; user data is a partial map from keys to the
string rendering of the stored value. -/

/-- The `DEFAULT_VCARD_FIELDS` template, in source order. -/
def DEFAULT_VCARD_FIELDS : List (String × String) :=
  [("BEGIN", "VCARD"), ("VERSION", "4.0"), ("KIND", "individual"),
   ("EMAIL;TYPE=WORK", "Work Email"), ("EMAIL;TYPE=HOME", "Home Email"),
   ("TITLE", "Title"), ("ROLE", "Role"), ("FN", "Full Name"),
   ("BDAY", "Birthday (YYYYMMDD)"),
   ("ADR;TYPE=HOME", "Home Address (pobox;ext;street;locality;region;code;country)"),
   ("NOTE", "Note (keep it short)"),
   ("TEL;TYPE=CELL", "Cell Phone"), ("TEL;TYPE=WORK", "Work Phone"),
   ("TEL;TYPE=HOME", "Home Phone"), ("TEL;TYPE=FAX", "Fax"),
   ("URL", "URL"), ("TZ", "Timezone (e.g. Africa/Windhoek)"),
   ("ORG", "Organization"), ("END", "VCARD")]

/-- The mandatory field set of `build_vcard`. -/
def vcardMandatory : List String := ["BEGIN", "VERSION", "END"]

/-- Embedding of the line-collecting loop of `build_vcard`: mandatory keys
always contribute their template value; other keys contribute the user value
exactly when it is present and non-empty after stripping. -/
def build_vcard_lines (data : String → Option String)
    (template : List (String × String)) : List String :=
  template.filterMap fun kv =>
    if kv.1 ∈ vcardMandatory then some (kv.1 ++ ":" ++ kv.2)
    else
      match data kv.1 with
      | some v => if pyStrip v ≠ "" then some (kv.1 ++ ":" ++ v) else Option.none
      | Option.none => Option.none

/-- Embedding of `build_vcard`: the collected lines joined with newlines. -/
def build_vcard (data : String → Option String) : String :=
  String.intercalate "\n" (build_vcard_lines data DEFAULT_VCARD_FIELDS)

lemma cons_colon_inj (k1 : List Char) :
    ∀ (k2 v1 v2 : List Char), ':' ∉ k1 → ':' ∉ k2 →
    k1 ++ ':' :: v1 = k2 ++ ':' :: v2 → k1 = k2 ∧ v1 = v2 := by
  induction k1 with
  | nil =>
    intro k2 v1 v2 _ h2 h
    cases k2 with
    | nil => simpa using h
    | cons b t =>
      simp only [List.nil_append, List.cons_append, List.cons.injEq] at h
      exact absurd (by rw [← h.1]; exact List.mem_cons_self ':' t) h2
  | cons a t ih =>
    intro k2 v1 v2 h1 h2 h
    cases k2 with
    | nil =>
      simp only [List.cons_append, List.nil_append, List.cons.injEq] at h
      exact absurd (by rw [h.1]; exact List.mem_cons_self ':' t) h1
    | cons b t2 =>
      simp only [List.cons_append, List.cons.injEq] at h
      obtain ⟨hab, hrest⟩ := h
      have h1' : ':' ∉ t := fun hm => h1 (List.mem_cons_of_mem _ hm)
      have h2' : ':' ∉ t2 := fun hm => h2 (List.mem_cons_of_mem _ hm)
      obtain ⟨hk, hv⟩ := ih t2 v1 v2 h1' h2' hrest
      exact ⟨by rw [hab, hk], hv⟩

lemma vcard_line_inj (k1 k2 v1 v2 : String)
    (h1 : ':' ∉ k1.data) (h2 : ':' ∉ k2.data)
    (h : k1 ++ ":" ++ v1 = k2 ++ ":" ++ v2) : k1 = k2 ∧ v1 = v2 := by
  obtain ⟨l1⟩ := k1
  obtain ⟨l2⟩ := k2
  obtain ⟨w1⟩ := v1
  obtain ⟨w2⟩ := v2
  have hd := congrArg String.data h
  simp only [String.data_append] at hd
  have hd' : l1 ++ ':' :: w1 = l2 ++ ':' :: w2 := by
    simpa [List.append_assoc] using hd
  obtain ⟨hk, hv⟩ := cons_colon_inj l1 l2 w1 w2 h1 h2 hd'
  exact ⟨by rw [hk], by rw [hv]⟩

lemma template_keys_no_colon : ∀ kv ∈ DEFAULT_VCARD_FIELDS, ':' ∉ (kv.1).data := by
  decide

/-- C9: `build_vcard` always emits the mandatory BEGIN/VERSION/END lines, and
an optional template field's line is present exactly when the data map holds
a value for it that is non-empty after stripping. -/
theorem c9_build_vcard (data : String → Option String) :
    "BEGIN:VCARD" ∈ build_vcard_lines data DEFAULT_VCARD_FIELDS ∧
    "VERSION:4.0" ∈ build_vcard_lines data DEFAULT_VCARD_FIELDS ∧
    "END:VCARD" ∈ build_vcard_lines data DEFAULT_VCARD_FIELDS ∧
    ∀ k tv, (k, tv) ∈ DEFAULT_VCARD_FIELDS → k ∉ vcardMandatory →
      ((∃ v, data k = some v ∧ pyStrip v ≠ "") ↔
        ∃ v, data k = some v ∧
          (k ++ ":" ++ v) ∈ build_vcard_lines data DEFAULT_VCARD_FIELDS) := by
  refine ⟨?_, ?_, ?_, ?_⟩
  · refine List.mem_filterMap.2 ⟨("BEGIN", "VCARD"), by decide, ?_⟩
    rw [if_pos (show (("BEGIN", "VCARD") : String × String).1 ∈ vcardMandatory by decide)]
    decide
  · refine List.mem_filterMap.2 ⟨("VERSION", "4.0"), by decide, ?_⟩
    rw [if_pos (show (("VERSION", "4.0") : String × String).1 ∈ vcardMandatory by decide)]
    decide
  · refine List.mem_filterMap.2 ⟨("END", "VCARD"), by decide, ?_⟩
    rw [if_pos (show (("END", "VCARD") : String × String).1 ∈ vcardMandatory by decide)]
    decide
  · intro k tv hmem hkman
    constructor
    · rintro ⟨v, hv, hne⟩
      refine ⟨v, hv, List.mem_filterMap.2 ⟨(k, tv), hmem, ?_⟩⟩
      simp only [build_vcard_lines, if_neg hkman, hv, if_pos hne]
    · rintro ⟨v, hv, hline⟩
      obtain ⟨⟨k', tv'⟩, hmem', hf⟩ := List.mem_filterMap.1 hline
      have hknc : ':' ∉ k.data := template_keys_no_colon (k, tv) hmem
      have hknc' : ':' ∉ k'.data := template_keys_no_colon (k', tv') hmem'
      by_cases hk' : k' ∈ vcardMandatory
      · rw [if_pos hk'] at hf
        obtain ⟨hkk, -⟩ :=
          vcard_line_inj k' k tv' v hknc' hknc (Option.some.inj hf)
        exact absurd (hkk ▸ hk') hkman
      · rw [if_neg hk'] at hf
        cases hd : data k' with
        | none =>
          simp only [hd] at hf
          exact Option.noConfusion hf
        | some vv =>
          simp only [hd] at hf
          by_cases hs : pyStrip vv ≠ ""
          · simp only [if_pos hs] at hf
            obtain ⟨hkk, hvv⟩ :=
              vcard_line_inj k' k vv v hknc' hknc (Option.some.inj hf)
            refine ⟨v, hv, ?_⟩
            rw [← hvv]
            exact hs
          · simp only [if_neg hs] at hf
            exact Option.noConfusion hf

/-- A concrete data map: only the FN field is populated. -/
def vcardDataW : String → Option String :=
  fun k => if k = "FN" then some "Ada" else Option.none

/-- Witness for C9: with only FN populated, the FN line is emitted. -/
theorem c9_witness :
    ∃ v, vcardDataW "FN" = some v ∧
      ("FN" ++ ":" ++ v) ∈ build_vcard_lines vcardDataW DEFAULT_VCARD_FIELDS :=
  ((c9_build_vcard vcardDataW).2.2.2 "FN" "Full Name" (by decide) (by decide)).mp
    ⟨"Ada", by decide, by decide⟩

/-! Text wrapping and band-height estimation (`_est_h`, qr.py lines 219-223).
`textwrap.wrap` is Python standard library; it is modelled as the usual greedy
fill: split on whitespace, break words longer than the width into
width-sized chunks, then pack greedily. Note that the source closure uses
`header_font_size` for both the header and the footer band. -/

/-- Accumulator loop for whitespace splitting: `cur` holds the current word
reversed. -/
def splitWordsGo : List Char → List Char → List String
  | [], cur => if cur = [] then [] else [⟨cur.reverse⟩]
  | c :: rest, cur =>
    if c.isWhitespace then
      if cur = [] then splitWordsGo rest []
      else (⟨cur.reverse⟩ : String) :: splitWordsGo rest []
    else splitWordsGo rest (c :: cur)

/-- Split a string on whitespace, discarding empty fragments. -/
def splitWhitespacePy (s : String) : List String := splitWordsGo s.data []

/-- Cut a character list into chunks of at most `w` characters; `fuel` bounds
the recursion and is instantiated with the list length. -/
def chunkListGo (fuel w : ℕ) (l : List Char) : List (List Char) :=
  match fuel with
  | 0 => []
  | fuel' + 1 =>
    if l = [] then [] else (l.take w) :: chunkListGo fuel' w (l.drop w)

/-- Cut a character list into chunks of at most `w` characters. -/
def chunkList (w : ℕ) (l : List Char) : List (List Char) :=
  if w = 0 then [] else chunkListGo l.length w l

/-- Greedy line packing: extend the current line while the next word fits. -/
def packGo (w : ℕ) (rest : List String) (cur : String) : List String :=
  match rest with
  | [] => [cur]
  | x :: xs =>
    if cur.length + 1 + x.length ≤ w then packGo w xs (cur ++ " " ++ x)
    else cur :: packGo w xs x

/-- Model of `textwrap.wrap(text, width)`: whitespace-only text wraps to no
lines at all, otherwise greedy fill with long-word breaking. -/
def pyWrap (t : String) (w : ℕ) : List String :=
  let pieces :=
    ((splitWhitespacePy t).map (fun word => (chunkList w word.data).map List.asString)).flatten
  match pieces with
  | [] => []
  | x :: xs => packGo w xs x

/-- Python truthiness of an optional text argument: `None` and `""` are falsy. -/
def textAbsent : Option String → Bool
  | Option.none => true
  | some t => t == ""

/-- Embedding of `_est_h` (qr.py lines 219-223): the estimated band height for
an optional caption. `hfs` is `header_font_size` (the closure uses it for both
bands), `b` the border width, `cw` the canvas width. The wrap width is
`int(pw / (header_font_size * 0.5))` clamped below by 1, with `pw` possibly
negative; in exact arithmetic that `int()` is the toward-zero quotient of
`2 * pw` by `hfs` (`Int.tdiv`). -/
def estH (txt : Option String) (hfs b cw : ℕ) : ℕ :=
  match txt with
  | Option.none => 0
  | some t =>
    if t = "" then 0
    else
      let pw : ℤ := (cw : ℤ) - 2 * (b : ℤ) - 16
      let ww : ℕ := (max 1 (Int.tdiv (2 * pw) (hfs : ℤ))).toNat
      (pyWrap t ww).length * (hfs + 4) + 8

/-! Foreground/background fill resolution (qr.py lines 145-173), including
the gradient generator. The gradient base bitmap varies only with the row;
the subsequent `rotate(90 - angle, expand=False)` call is kept symbolic in
the `Fill` value because bicubic resampling at a nonzero angle is outside
the model, while rotation by 0 degrees returns the bitmap unchanged. -/

/-- A resolved fill layer: a solid RGBA color, or a gradient bitmap together
with the rotation (in degrees) that PIL is asked to apply to it. -/
inductive Fill where
  | solid (c : RGBA)
  | gradientRot (base : ℕ → ℕ → RGBA) (degrees : ℚ)

/-- One channel of the vertical gradient (qr.py lines 160-164):
`int(c1 + (c2 - c1) * (y / max(1, n - 1)))`. -/
def gradChannel (a b2 : ℕ) (n y : ℕ) : ℕ :=
  (pyInt ((a : ℚ) + ((b2 : ℚ) - (a : ℚ)) * ((y : ℚ) / ((max 1 (n - 1) : ℕ) : ℚ)))).toNat

/-- Pixel `(x, y)` of the unrotated gradient bitmap: color depends only on the
row, interpolating from `c1` at the top to `c2` at the bottom, fully opaque. -/
def gradBasePixel (c1 c2 : RGB) (n : ℕ) (_x y : ℕ) : RGBA :=
  ⟨gradChannel c1.r c2.r n y, gradChannel c1.g c2.g n y, gradChannel c1.b c2.b n y, 255⟩

/-- The rotation passed to PIL (qr.py line 169): `90 - angle` degrees. -/
def gradRotationDegrees (angle : ℚ) : ℚ := 90 - angle

/-- Pixel lookup through a fill. PIL's `rotate(0, expand=False)` returns the
bitmap unchanged, so a gradient rotated by 0 degrees is readable pixel-wise;
a nonzero rotation performs bicubic resampling, which the model leaves
undefined (`Option.none`). -/
def fillPixel : Fill → ℕ → ℕ → Option RGBA
  | Fill.solid c, _, _ => some c
  | Fill.gradientRot base deg, x, y =>
    if deg = 0 then some (base x y) else Option.none

/-- Style enums of `generate_qr`. -/
inductive ColorMask where
  | solid
  | gradient
deriving DecidableEq, Repr

/-- Gradient target selector (`gradient_target`); any value other than
`"background"` behaves as foreground in the source. -/
inductive GradTarget where
  | foreground
  | background
deriving DecidableEq, Repr

/-- Logo clip selector (`logo_clip`). -/
inductive ClipShape where
  | none
  | circle
  | square
deriving DecidableEq, Repr

/-- Logo configuration as `generate_qr` receives it, for a logo file that
exists and opens: the scale and opacity arguments and the source image's
alpha channel after the resize to `lsz` x `lsz`. -/
structure LogoCfg where
  scale : ℚ
  opacity : ℚ
  clip : ClipShape
  alpha : ℕ → ℕ → ℕ

/-- Render configuration: the arguments of `generate_qr` (qr.py lines 45-78)
that the post-size pipeline reads, after the kwargs preprocessing. `size` is
the target size, `pixel_size` the width of the encoder-native styled image,
`stencil` the dark-module mask of that image. Cosmetic text options that only
affect glyph placement (alignment, boldness, font paths) are not modelled. -/
structure Config where
  size : ℕ
  pixel_size : ℕ
  stencil : ℕ → ℕ → Bool
  fill_color : ColorInput
  back_color : ColorInput
  border : ℕ
  corner_radius : ℕ
  qr_corner_radius : Option ℕ
  border_corner_radius : Option ℕ
  border_color : ColorInput
  logo : Option LogoCfg
  transparent_bg : Bool
  color_mask : ColorMask
  gradient_start : ColorInput
  gradient_end : ColorInput
  gradient_angle : ℚ
  gradient_target : GradTarget
  header_text : Option String
  footer_text : Option String
  header_font_size : ℕ
  footer_font_size : ℕ

/-- Embedding of the fill-construction block (qr.py lines 145-173): solid
foreground/background layers, the background fully transparent when
`transparent_bg`, and a rotated gradient replacing one of the two layers
only when `color_mask == "gradient" and not transparent_bg`. -/
def resolveFills (cfg : Config) : Fill × Fill :=
  let bg : Fill :=
    if cfg.transparent_bg then Fill.solid ⟨0, 0, 0, 0⟩
    else Fill.solid ((_to_rgb_tuple cfg.back_color ⟨255, 255, 255⟩).withAlpha 255)
  let fg : Fill := Fill.solid ((_to_rgb_tuple cfg.fill_color ⟨0, 0, 0⟩).withAlpha 255)
  if cfg.color_mask = ColorMask.gradient ∧ cfg.transparent_bg = false then
    let c1 := _to_rgb_tuple cfg.gradient_start ⟨0, 0, 0⟩
    let c2 := _to_rgb_tuple cfg.gradient_end ⟨255, 255, 255⟩
    let rot := Fill.gradientRot (gradBasePixel c1 c2 cfg.pixel_size)
      (gradRotationDegrees cfg.gradient_angle)
    match cfg.gradient_target with
    | GradTarget.background => (fg, rot)
    | GradTarget.foreground => (rot, bg)
  else (fg, bg)

lemma gradChannel_top (a b2 n : ℕ) : gradChannel a b2 n 0 = a := by
  simp [gradChannel, pyInt]

lemma gradChannel_bottom (a b2 n : ℕ) (h : 2 ≤ n) :
    gradChannel a b2 n (n - 1) = b2 := by
  have hpos : 1 ≤ n - 1 := by omega
  have hmax : max 1 (n - 1) = n - 1 := by omega
  have hne : ((n - 1 : ℕ) : ℚ) ≠ 0 := Nat.cast_ne_zero.2 (by omega)
  unfold gradChannel
  rw [hmax, div_self hne]
  simp [pyInt]

/-- C6 (amended): the gradient base bitmap interpolates from color A on the
top row to color B on the bottom row for every dimension N at least 2 (at
N = 1 the single row carries A); the bitmap is then rotated by `90 - d`
degrees without resizing, and for d = 90 the rotation is 0 degrees, so the
result equals the unrotated vertical gradient. -/
theorem c6_gradient_amended (c1 c2 : RGB) (n x y : ℕ) (d : ℚ) (h : 2 ≤ n) :
    gradBasePixel c1 c2 n x 0 = ⟨c1.r, c1.g, c1.b, 255⟩ ∧
    gradBasePixel c1 c2 n x (n - 1) = ⟨c2.r, c2.g, c2.b, 255⟩ ∧
    gradRotationDegrees d = 90 - d ∧
    fillPixel (Fill.gradientRot (gradBasePixel c1 c2 n) (gradRotationDegrees 90)) x y
      = some (gradBasePixel c1 c2 n x y) := by
  refine ⟨?_, ?_, rfl, ?_⟩
  · simp [gradBasePixel, gradChannel_top]
  · simp [gradBasePixel, gradChannel_bottom _ _ _ h]
  · simp [fillPixel, gradRotationDegrees]

/-- Witness for C6 (amended) at concrete colors, N = 5, d = 37. -/
theorem c6_gradient_amended_witness :
    gradBasePixel ⟨10, 20, 30⟩ ⟨200, 100, 0⟩ 5 0 0 = ⟨10, 20, 30, 255⟩ ∧
    gradBasePixel ⟨10, 20, 30⟩ ⟨200, 100, 0⟩ 5 0 (5 - 1) = ⟨200, 100, 0, 255⟩ ∧
    gradRotationDegrees 37 = 90 - 37 ∧
    fillPixel (Fill.gradientRot (gradBasePixel ⟨10, 20, 30⟩ ⟨200, 100, 0⟩ 5)
        (gradRotationDegrees 90)) 0 3
      = some (gradBasePixel ⟨10, 20, 30⟩ ⟨200, 100, 0⟩ 5 0 3) :=
  c6_gradient_amended ⟨10, 20, 30⟩ ⟨200, 100, 0⟩ 5 0 3 37 (by decide)

/-- Counterexample for C6 as stated: the claim ranges over every dimension
N at least 1, but at N = 1 the (single) bottom row carries color A, not
color B. -/
theorem c6_counterexample :
    gradBasePixel ⟨0, 0, 0⟩ ⟨255, 255, 255⟩ 1 0 (1 - 1) = ⟨0, 0, 0, 255⟩ ∧
    (⟨0, 0, 0, 255⟩ : RGBA) ≠ ⟨255, 255, 255, 255⟩ := by
  constructor
  · simp [gradBasePixel, gradChannel_top]
  · decide

/-- C10: when `transparent_bg` is set, the gradient branch is skipped
entirely: the foreground is the solid fill color and the background the
fully transparent solid, whatever the gradient settings say. -/
theorem c10_transparent_ignores_gradient (cfg : Config)
    (h : cfg.transparent_bg = true) :
    resolveFills cfg =
      (Fill.solid ((_to_rgb_tuple cfg.fill_color ⟨0, 0, 0⟩).withAlpha 255),
       Fill.solid ⟨0, 0, 0, 0⟩) := by
  unfold resolveFills
  rw [if_pos h, if_neg (by simp [h])]

/-- A configuration requesting a foreground gradient on a transparent
background. -/
def cfgC10 : Config :=
  { size := 100, pixel_size := 290, stencil := fun _ _ => false,
    fill_color := ColorInput.str "black", back_color := ColorInput.str "white",
    border := 0, corner_radius := 0, qr_corner_radius := Option.none,
    border_corner_radius := Option.none, border_color := ColorInput.null,
    logo := Option.none, transparent_bg := true,
    color_mask := ColorMask.gradient, gradient_start := ColorInput.str "#ff0000",
    gradient_end := ColorInput.str "#0000ff", gradient_angle := 45,
    gradient_target := GradTarget.foreground,
    header_text := Option.none, footer_text := Option.none,
    header_font_size := 24, footer_font_size := 18 }

/-- Witness for C10: with a transparent background and a foreground gradient
requested, both layers come out solid. -/
theorem c10_witness :
    resolveFills cfgC10 = (Fill.solid ⟨0, 0, 0, 255⟩, Fill.solid ⟨0, 0, 0, 0⟩) := by
  rw [c10_transparent_ignores_gradient cfgC10 rfl]
  rfl

/-! Logo overlay engine (qr.py lines 263-302). -/

/-- Logo pixel size (qr.py line 266): `max(1, int(size * float(logo_scale or
0.2)))` -- note the truncating `int()` and the Python falsiness of 0. -/
def logoLsz (size : ℕ) (scale : ℚ) : ℕ :=
  (max 1 (pyInt ((size : ℚ) * (if scale = 0 then 1/5 else scale)))).toNat

/-- The clip mask bitmap built at qr.py lines 291-295: for `circle` a filled
ellipse inscribed in the `lsz` square (pixel centers against the ideal disc
model PIL rasterises); for `square` a plain filled rectangle covering the
whole square, so every pixel is 255. No mask is built for `none`; that arm
is never consulted and returns the identity value 255. -/
def clipMaskPx (clip : ClipShape) (lsz : ℕ) (x y : ℕ) : ℕ :=
  match clip with
  | ClipShape.none => 255
  | ClipShape.circle =>
    if (2 * (x : ℚ) + 1 - lsz)^2 + (2 * (y : ℚ) + 1 - lsz)^2 ≤ (lsz : ℚ)^2 then 255
    else 0
  | ClipShape.square => 255

/-- The logo's final alpha channel as assembled by qr.py lines 269-300: the
source alpha is first scaled by opacity when `logo_opacity or 1.0` is below
1; then, when a clip is requested, `logo.putalpha(lm)` REPLACES the alpha
with the clip mask (itself scaled by opacity), discarding the source alpha. -/
def logoFinalAlpha (clip : ClipShape) (opacity : ℚ) (src : ℕ → ℕ → ℕ)
    (lsz : ℕ) : ℕ → ℕ → ℕ :=
  let effOp := if opacity = 0 then 1 else opacity
  let a1 : ℕ → ℕ → ℕ :=
    if effOp < 1 then fun x y => (pyInt ((src x y : ℚ) * opacity)).toNat else src
  match clip with
  | ClipShape.none => a1
  | _ =>
    if effOp < 1 then fun x y => (pyInt ((clipMaskPx clip lsz x y : ℚ) * opacity)).toNat
    else clipMaskPx clip lsz

/-- The clipped alpha channel as the amended claim describes it: the clip
mask scaled by opacity, independent of the source logo's alpha. -/
def clippedAlphaSpec (clip : ClipShape) (opacity : ℚ) (lsz : ℕ) (x y : ℕ) : ℕ :=
  let effOp := if opacity = 0 then 1 else opacity
  if effOp < 1 then (pyInt ((clipMaskPx clip lsz x y : ℚ) * opacity)).toNat
  else clipMaskPx clip lsz x y

/-- Placement of the logo on the canvas: the paste position and size, the
final alpha used as the paste mask, and the transparent cutout punched into
the canvas beneath a clipped logo (position and side). -/
structure LogoPlacement where
  x : ℤ
  y : ℤ
  sizePx : ℕ
  alpha : ℕ → ℕ → ℕ
  cutout : Option (ℤ × ℤ × ℕ)

/-- Embedding of the logo block (qr.py lines 264-302) for a present logo:
`px`/`py` is the QR paste origin, `qrW`/`qrH` the pasted QR dimensions. -/
def logoPlace (cfg : Config) (l : LogoCfg) (px py qrW qrH : ℕ) : LogoPlacement :=
  let lsz := logoLsz cfg.size l.scale
  let cut : Option (ℤ × ℤ × ℕ) :=
    if l.clip = ClipShape.none then Option.none
    else
      let buffer := (max 2 (pyInt ((lsz : ℚ) * (1/10)))).toNat
      let csz := lsz + 2 * buffer
      some ((px : ℤ) + Int.fdiv ((qrW : ℤ) - (csz : ℤ)) 2,
            (py : ℤ) + Int.fdiv ((qrH : ℤ) - (csz : ℤ)) 2, csz)
  { x := (px : ℤ) + Int.fdiv ((qrW : ℤ) - (lsz : ℤ)) 2,
    y := (py : ℤ) + Int.fdiv ((qrH : ℤ) - (lsz : ℤ)) 2,
    sizePx := lsz,
    alpha := logoFinalAlpha l.clip l.opacity l.alpha lsz,
    cutout := cut }

/-! Pipeline orchestration (qr.py lines 175-307). -/

/-- Effective QR corner radius (qr.py line 183). -/
def effQrCr (cfg : Config) : ℕ := cfg.qr_corner_radius.getD cfg.corner_radius

/-- Effective outer corner radius (qr.py line 184). -/
def effOuterCr (cfg : Config) : ℕ := cfg.border_corner_radius.getD cfg.corner_radius

/-- Python truthiness of a color argument: `None` and `""` are falsy. -/
def colorTruthy : ColorInput → Bool
  | ColorInput.str s => !(s == "")
  | ColorInput.tup _ => true
  | ColorInput.null => false

/-- The effective background color used as border fallback (qr.py lines
230-233): the background color if truthy else white, overridden by the
gradient start color when the background is a non-transparent gradient. -/
def actualBackColor (cfg : Config) : ColorInput :=
  if cfg.color_mask = ColorMask.gradient ∧ cfg.gradient_target = GradTarget.background
      ∧ cfg.transparent_bg = false then
    (if colorTruthy cfg.gradient_start then cfg.gradient_start else ColorInput.str "white")
  else if colorTruthy cfg.back_color then cfg.back_color else ColorInput.str "white"

/-- The border color input (qr.py line 235): explicit border color if truthy,
else the effective background color. -/
def borderColorInput (cfg : Config) : ColorInput :=
  if colorTruthy cfg.border_color then cfg.border_color else actualBackColor cfg

/-- The flat color the enlarged canvas is created with (qr.py lines 237-240):
fully transparent when `transparent_bg`, else the resolved border color. -/
def canvasFill (cfg : Config) : RGBA :=
  if cfg.transparent_bg then ⟨0, 0, 0, 0⟩
  else (_to_rgb_tuple (borderColorInput cfg) ⟨255, 255, 255⟩).withAlpha 255

/-- Frame data assembled during post-processing: border, canvas fill, QR paste
position and rounding, caption band heights, outer rounding and logo. -/
structure FrameData where
  border : ℕ
  fill : RGBA
  qrX : ℕ
  qrY : ℕ
  qrCornerRadius : ℕ
  headerBand : ℕ
  footerBand : ℕ
  outerCornerRadius : ℕ
  logo : Option LogoPlacement

/-- The image the pipeline saves, represented structurally: overall pixel
dimensions, the fills and stencil of the composed QR, and the frame data when
post-processing ran to completion (`Option.none` for the bare composite). -/
structure RenderedImage where
  width : ℕ
  height : ℕ
  fg : Fill
  bg : Fill
  stencil : ℕ → ℕ → Bool
  frame : Option FrameData

/-- The composite produced before the post-processing `try` block (qr.py
lines 139-178): fills composed through the module stencil and resized to
`size` x `size`. -/
def baseImage (cfg : Config) : RenderedImage :=
  { width := cfg.size, height := cfg.size,
    fg := (resolveFills cfg).1, bg := (resolveFills cfg).2,
    stencil := cfg.stencil, frame := Option.none }

/-- The fully post-processed image (qr.py lines 181-303): canvas of
`size + 2b` by `size + 2b + headerBand + footerBand`, QR pasted at
`(b, b + headerBand)`, both band heights estimated with `header_font_size`
as the source closure does, and the logo placed centered on the QR region. -/
def renderImage (cfg : Config) : RenderedImage :=
  let b := cfg.border
  let nw := cfg.size + 2 * b
  let hh := estH cfg.header_text cfg.header_font_size b nw
  let fh := estH cfg.footer_text cfg.header_font_size b nw
  let nh := cfg.size + 2 * b + hh + fh
  let px := b
  let py := b + hh
  { width := nw, height := nh,
    fg := (resolveFills cfg).1, bg := (resolveFills cfg).2,
    stencil := cfg.stencil,
    frame := some {
      border := b, fill := canvasFill cfg,
      qrX := px, qrY := py,
      qrCornerRadius := effQrCr cfg,
      headerBand := hh, footerBand := fh,
      outerCornerRadius := effOuterCr cfg,
      logo := cfg.logo.map (fun l => logoPlace cfg l px py cfg.size cfg.size) } }

/-- The logo placement of the completed render. -/
def renderLogo (cfg : Config) : Option LogoPlacement :=
  match (renderImage cfg).frame with
  | some fr => fr.logo
  | Option.none => Option.none

/-- The post-processing steps in the order the source executes them. -/
inductive Step where
  | composeBackground
  | pasteQR
  | drawHeader
  | drawFooter
  | applyOuterMask
  | embedLogo
  | save
deriving DecidableEq, Repr

/-- Python truthiness of the header argument at qr.py line 254. -/
def hdrPresent (cfg : Config) : Bool :=
  match cfg.header_text with
  | some t => !(t == "")
  | Option.none => false

/-- Python truthiness of the footer argument at qr.py line 255. -/
def ftrPresent (cfg : Config) : Bool :=
  match cfg.footer_text with
  | some t => !(t == "")
  | Option.none => false

/-- The step sequence of one render, read off qr.py lines 237-307: canvas
creation, QR paste, captions, then the outer corner mask (lines 258-261) and
only AFTER it the logo embedding (lines 263-302), and finally the save. -/
def pipelineTrace (cfg : Config) : List Step :=
  [Step.composeBackground, Step.pasteQR]
    ++ (if hdrPresent cfg then [Step.drawHeader] else [])
    ++ (if ftrPresent cfg then [Step.drawFooter] else [])
    ++ (if 0 < effOuterCr cfg then [Step.applyOuterMask] else [])
    ++ (if cfg.logo.isSome then [Step.embedLogo] else [])
    ++ [Step.save]

/-- Source position of each step in `generate_qr`'s post-processing block. -/
def stepRank : Step → ℕ
  | Step.composeBackground => 0
  | Step.pasteQR => 1
  | Step.drawHeader => 2
  | Step.drawFooter => 3
  | Step.applyOuterMask => 4
  | Step.embedLogo => 5
  | Step.save => 6

/-- A post-processing step at which the environment raises an exception
(font I/O, logo decoding, PIL internals). -/
inductive FaultStep where
  | borderStep
  | qrRounding
  | captionText
  | outerMask
  | logoOverlay
deriving DecidableEq, Repr

/-- Post-processing under a fault oracle: an injected exception aborts the
block (the partially built canvas local to the `try` block is discarded),
otherwise the full frame is produced. -/
def postProcess (cfg : Config) (fault : Option FaultStep) :
    Except FaultStep RenderedImage :=
  match fault with
  | some f => Except.error f
  | Option.none => Except.ok (renderImage cfg)

/-- Result of one `generate_qr` call: the image saved at the destination, or
an escaped exception. -/
inductive Outcome where
  | saved (dest : String) (img : RenderedImage)
  | raised (f : FaultStep)

/-- Embedding of `generate_qr`'s tail (qr.py lines 181-307): the
post-processing block runs under `try`; on an exception the error is logged
and `img` still refers to the pre-post-processing composite, which
`img.save(dest)` then writes; on success the completed canvas is written. -/
def generate_qr (cfg : Config) (fault : Option FaultStep) (dest : String) : Outcome :=
  match postProcess cfg fault with
  | Except.ok img => Outcome.saved dest img
  | Except.error _ => Outcome.saved dest (baseImage cfg)

/-- The pixel content of an outcome, destination path stripped. -/
def outputImage : Outcome → Option RenderedImage
  | Outcome.saved _ img => some img
  | Outcome.raised _ => Option.none

/-- C1: when post-processing completes (no fault), the saved image is
`size + 2*border` wide and `size + 2*border + headerBand + footerBand` tall,
and a band height is zero whenever the corresponding text is absent. -/
theorem c1_saved_dimensions (cfg : Config) (dest : String) (_h : 0 < cfg.size) :
    ∃ img, generate_qr cfg Option.none dest = Outcome.saved dest img ∧
      img.width = cfg.size + 2 * cfg.border ∧
      img.height = cfg.size + 2 * cfg.border
        + estH cfg.header_text cfg.header_font_size cfg.border (cfg.size + 2 * cfg.border)
        + estH cfg.footer_text cfg.header_font_size cfg.border (cfg.size + 2 * cfg.border) ∧
      (textAbsent cfg.header_text = true →
        estH cfg.header_text cfg.header_font_size cfg.border (cfg.size + 2 * cfg.border) = 0) ∧
      (textAbsent cfg.footer_text = true →
        estH cfg.footer_text cfg.header_font_size cfg.border (cfg.size + 2 * cfg.border) = 0) := by
  refine ⟨renderImage cfg, rfl, rfl, rfl, ?_, ?_⟩
  · intro ha
    cases ht : cfg.header_text with
    | none => rfl
    | some t =>
      rw [ht] at ha
      have hte : t = "" := by simpa [textAbsent] using ha
      simp [estH, hte]
  · intro ha
    cases ht : cfg.footer_text with
    | none => rfl
    | some t =>
      rw [ht] at ha
      have hte : t = "" := by simpa [textAbsent] using ha
      simp [estH, hte]

/-- A concrete configuration with a header caption and no footer. -/
def cfgC1 : Config :=
  { size := 100, pixel_size := 290, stencil := fun _ _ => false,
    fill_color := ColorInput.str "black", back_color := ColorInput.str "white",
    border := 5, corner_radius := 0, qr_corner_radius := Option.none,
    border_corner_radius := Option.none, border_color := ColorInput.null,
    logo := Option.none, transparent_bg := false,
    color_mask := ColorMask.solid, gradient_start := ColorInput.str "#000000",
    gradient_end := ColorInput.str "#ffffff", gradient_angle := 0,
    gradient_target := GradTarget.foreground,
    header_text := some "HI", footer_text := Option.none,
    header_font_size := 24, footer_font_size := 18 }

/-- Witness for C1: size 100, border 5, header "HI", no footer gives a
110 x 146 image (header band 1 * (24 + 4) + 8 = 36). -/
theorem c1_witness :
    ∃ img, generate_qr cfgC1 Option.none "out/p.png" = Outcome.saved "out/p.png" img ∧
      img.width = 110 ∧ img.height = 146 := by
  obtain ⟨img, hsave, hw, hh, -, -⟩ := c1_saved_dimensions cfgC1 "out/p.png" (by decide)
  refine ⟨img, hsave, ?_, ?_⟩
  · rw [hw]
    decide
  · rw [hh]
    decide

/-- C2: any exception injected into the post-processing block is caught at
the orchestrator boundary: the call still saves an image to the destination
(the pre-post-processing composite), and no exception escapes. -/
theorem c2_postprocess_caught (cfg : Config) (fault : Option FaultStep) (dest : String) :
    (∃ img, generate_qr cfg fault dest = Outcome.saved dest img) ∧
    (∀ f, fault = some f →
      generate_qr cfg fault dest = Outcome.saved dest (baseImage cfg)) := by
  cases fault with
  | none => exact ⟨⟨renderImage cfg, rfl⟩, fun f hf => by cases hf⟩
  | some f => exact ⟨⟨baseImage cfg, rfl⟩, fun f2 _ => rfl⟩

/-- Witness for C2: a fault during the logo overlay still saves the bare
composite. -/
theorem c2_witness :
    generate_qr cfgC1 (some FaultStep.logoOverlay) "out/q.png"
      = Outcome.saved "out/q.png" (baseImage cfgC1) :=
  (c2_postprocess_caught cfgC1 (some FaultStep.logoOverlay) "out/q.png").2
    FaultStep.logoOverlay rfl

/-- C3 (amended): the steps of every render occur in source order: compose
background, paste QR, header, footer, then the OUTER CORNER MASK, then the
LOGO, then save -- the outer mask precedes the logo embedding, not the other
way round. -/
theorem c3_pipeline_order_amended (cfg : Config) :
    List.Chain' (fun a b => stepRank a < stepRank b) (pipelineTrace cfg) := by
  unfold pipelineTrace
  cases h1 : hdrPresent cfg <;> cases h2 : ftrPresent cfg <;>
    cases h3 : cfg.logo.isSome <;> by_cases h4 : 0 < effOuterCr cfg <;>
      simp [h1, h2, h3, h4] <;> decide

/-- A configuration with every optional step enabled. -/
def cfgC3 : Config :=
  { size := 100, pixel_size := 290, stencil := fun _ _ => false,
    fill_color := ColorInput.str "black", back_color := ColorInput.str "white",
    border := 4, corner_radius := 0, qr_corner_radius := Option.none,
    border_corner_radius := some 6, border_color := ColorInput.null,
    logo := some { scale := 1/5, opacity := 1, clip := ClipShape.circle,
                   alpha := fun _ _ => 255 },
    transparent_bg := false,
    color_mask := ColorMask.solid, gradient_start := ColorInput.str "#000000",
    gradient_end := ColorInput.str "#ffffff", gradient_angle := 0,
    gradient_target := GradTarget.foreground,
    header_text := some "H", footer_text := some "F",
    header_font_size := 24, footer_font_size := 18 }

/-- Counterexample for C3 as stated: with every step enabled the trace runs
the outer corner mask BEFORE the logo embedding, so the claimed
logo-before-mask order is false. -/
theorem c3_counterexample :
    pipelineTrace cfgC3 =
      [Step.composeBackground, Step.pasteQR, Step.drawHeader, Step.drawFooter,
       Step.applyOuterMask, Step.embedLogo, Step.save] ∧
    ¬ (pipelineTrace cfgC3).indexOf Step.embedLogo
        < (pipelineTrace cfgC3).indexOf Step.applyOuterMask := by
  constructor <;> decide

/-- C4 (amended): the logo is resized to the square side
`max(1, int(targetSize * scale))` -- a truncating `int()`, not `round`, with
scale 0 falling back to 0.2 -- and pasted with top-left corner at
`(qrOriginX + (qrWidth - lsz) // 2, qrOriginY + (qrHeight - lsz) // 2)`,
centered on the QR region (origin `(b, b + headerBand)`, extent
`targetSize`). -/
theorem c4_logo_geometry_amended (cfg : Config) (l : LogoCfg) (h : cfg.logo = some l) :
    ∃ p, renderLogo cfg = some p ∧
      p.sizePx = (max 1 (pyInt ((cfg.size : ℚ) *
        (if l.scale = 0 then 1/5 else l.scale)))).toNat ∧
      p.x = (cfg.border : ℤ) + Int.fdiv ((cfg.size : ℤ) - (p.sizePx : ℤ)) 2 ∧
      p.y = ((cfg.border + estH cfg.header_text cfg.header_font_size cfg.border
          (cfg.size + 2 * cfg.border) : ℕ) : ℤ)
        + Int.fdiv ((cfg.size : ℤ) - (p.sizePx : ℤ)) 2 := by
  refine ⟨logoPlace cfg l cfg.border
    (cfg.border + estH cfg.header_text cfg.header_font_size cfg.border
      (cfg.size + 2 * cfg.border)) cfg.size cfg.size, ?_, rfl, rfl, rfl⟩
  simp [renderLogo, renderImage, h]

/-- A concrete configuration whose logo scale 49/50 exposes the truncation:
`105 * 0.98 = 102.9`, truncated to 102 where `round` gives 103. -/
def cfgC4 : Config :=
  { size := 105, pixel_size := 290, stencil := fun _ _ => false,
    fill_color := ColorInput.str "black", back_color := ColorInput.str "white",
    border := 0, corner_radius := 0, qr_corner_radius := Option.none,
    border_corner_radius := Option.none, border_color := ColorInput.null,
    logo := some { scale := 49/50, opacity := 1, clip := ClipShape.none,
                   alpha := fun _ _ => 255 },
    transparent_bg := false,
    color_mask := ColorMask.solid, gradient_start := ColorInput.str "#000000",
    gradient_end := ColorInput.str "#ffffff", gradient_angle := 0,
    gradient_target := GradTarget.foreground,
    header_text := Option.none, footer_text := Option.none,
    header_font_size := 24, footer_font_size := 18 }

lemma logoLsz_cfgC4 : logoLsz 105 (49/50) = 102 := by
  unfold logoLsz pyInt
  rw [if_neg (by norm_num : ¬(49/50 : ℚ) = 0),
    if_neg (by norm_num : ¬((105 : ℕ) : ℚ) * (49/50) < 0)]
  rw [show ⌊((105 : ℕ) : ℚ) * (49/50)⌋ = 102 by norm_num [Int.floor_eq_iff]]
  decide

/-- Counterexample for C4 as stated: at targetSize 105 and scale 49/50 the
code computes a logo side of 102 pixels, while `round(105 * 0.98) = 103`. -/
theorem c4_counterexample :
    (renderLogo cfgC4).map LogoPlacement.sizePx = some 102 ∧
    round ((105 : ℚ) * (49/50)) = 103 := by
  constructor
  · simp [renderLogo, renderImage, cfgC4, logoPlace, logoLsz_cfgC4]
  · norm_num [round_eq, Int.floor_eq_iff]

/-- The logo settings of the C4 witness configuration. -/
def logoC4w : LogoCfg :=
  { scale := 1/5, opacity := 1, clip := ClipShape.none, alpha := fun _ _ => 255 }

/-- A concrete configuration with logo scale 1/5 for the C4 witness. -/
def cfgC4w : Config :=
  { cfgC4 with size := 100, border := 5, logo := some logoC4w }

/-- Witness for C4 (amended): size 100, border 5, scale 1/5 places a
20-pixel logo at (45, 45). -/
theorem c4_witness :
    ∃ p, renderLogo cfgC4w = some p ∧ p.sizePx = 20 ∧ p.x = 45 ∧ p.y = 45 := by
  obtain ⟨p, hp, hs, hx, hy⟩ := c4_logo_geometry_amended cfgC4w logoC4w rfl
  have hs20 : p.sizePx = 20 := by
    rw [hs]
    have hsc : (if logoC4w.scale = 0 then (1/5 : ℚ) else logoC4w.scale) = 1/5 := by
      rw [show logoC4w.scale = 1/5 from rfl]
      rw [if_neg (by norm_num : ¬(1/5 : ℚ) = 0)]
    rw [hsc, show cfgC4w.size = 100 from rfl]
    have hpy : pyInt (((100 : ℕ) : ℚ) * (1/5)) = 20 := by
      unfold pyInt
      rw [if_neg (by norm_num : ¬((100 : ℕ) : ℚ) * (1/5) < 0)]
      norm_num [Int.floor_eq_iff]
    rw [hpy]
    decide
  refine ⟨p, hp, hs20, ?_, ?_⟩
  · rw [hx, hs20]
    decide
  · rw [hy, hs20]
    decide

/-- C5 (amended): when a clip is requested, the clip mask (a filled ellipse
for circle, a plain full rectangle for square), scaled by opacity, REPLACES
the logo's alpha channel, independently of the source alpha. -/
theorem c5_clip_replaces_alpha (clip : ClipShape) (h : clip ≠ ClipShape.none)
    (opacity : ℚ) (src : ℕ → ℕ → ℕ) (lsz x y : ℕ) :
    logoFinalAlpha clip opacity src lsz x y = clippedAlphaSpec clip opacity lsz x y := by
  cases clip with
  | none => exact absurd rfl h
  | circle =>
    by_cases h1 : (if opacity = 0 then (1 : ℚ) else opacity) < 1 <;>
      simp [logoFinalAlpha, clippedAlphaSpec, h1]
  | square =>
    by_cases h1 : (if opacity = 0 then (1 : ℚ) else opacity) < 1 <;>
      simp [logoFinalAlpha, clippedAlphaSpec, h1]

/-- Witness for C5 (amended) at a circle clip with full opacity. -/
theorem c5_witness :
    logoFinalAlpha ClipShape.circle 1 (fun _ _ => 7) 4 1 1
      = clippedAlphaSpec ClipShape.circle 1 4 1 1 :=
  c5_clip_replaces_alpha ClipShape.circle (by decide) 1 (fun _ _ => 7) 4 1 1

/-- Counterexample for C5 as stated: a pixel that is fully transparent in the
source logo (alpha 0) comes out fully opaque (alpha 255) after a square clip,
because `putalpha` replaces the channel instead of intersecting with it. -/
theorem c5_counterexample :
    logoFinalAlpha ClipShape.square 1 (fun _ _ => 0) 10 0 0 = 255 ∧
    (255 : ℕ) ≠ 0 := by
  constructor
  · decide
  · decide

/-- C8: the saved pixel content depends only on the configuration (and the
fault oracle), never on the destination path: two renders of the same
configuration to different destinations save identical images. -/
theorem c8_deterministic_across_destinations (cfg : Config)
    (fault : Option FaultStep) (d1 d2 : String) :
    outputImage (generate_qr cfg fault d1) = outputImage (generate_qr cfg fault d2) := by
  cases fault <;> rfl

end QRGen
